import Mathlib

/-!
Verification of the dashclock terminal dashboard (main.go).

The Go source is shallowly embedded: epoch instants and terminal
dimensions are integers, float64 metric values are refined to rationals,
the fixed-offset display timezone is its offset in seconds, and the two
process-terminating exits (log.Fatalf and a runtime index-out-of-range
panic) are explicit constructors of a process-outcome type.
-/

/-- A backend sample, `(timestamp in epoch seconds, value)`.  Values are
modelled as rationals refining the float64 values of the source. -/
abbrev Sample : Type := Int × ℚ

/-- One series of a matrix response (`model.SampleStream`), keeping only
the `Values` field that `findPromValue` reads. -/
structure SampleStream where
  Values : List Sample
deriving DecidableEq

/-- `const nullValue = -999` from main.go: the sentinel standing for a
missing sample, "Since float64 cannot be null". -/
def nullValue : ℚ := -999

/-- The scan of `findPromValue` over the `Values` list: the first sample
whose timestamp equals `timestamp` wins, otherwise `nilValue`. -/
def findPromValueList : List Sample → Int → ℚ → ℚ
  | [], _, nilValue => nilValue
  | (ts, v) :: rest, timestamp, nilValue =>
      if ts = timestamp then v else findPromValueList rest timestamp nilValue

/-- `findPromValue` from main.go. -/
def findPromValue (sampleSet : SampleStream) (timestamp : Int) (nilValue : ℚ) : ℚ :=
  findPromValueList sampleSet.Values timestamp nilValue

/-- Two-digit zero padding, as Go `time.Format` does for "15" and "04". -/
def pad2 (n : Int) : String :=
  (if n < 10 then "0" else "") ++ toString n

/-- `timeThen.In(tz).Format("15:04")` for a fixed-offset timezone:
hour and minute of the local day of an epoch-seconds instant. -/
def formatHHMM (tzOffset t : Int) : String :=
  pad2 (((t + tzOffset) % 86400) / 3600) ++ ":" ++ pad2 ((((t + tzOffset) % 86400) % 3600) / 60)

/-- The grid instants `timeNow - i*intervalSeconds` visited by the loop
`for i := length; i >= 0; i--` of `prometheusQueryRange`, in loop order
(oldest first). -/
def gridTimes (timeNow intervalSeconds : Int) (length : Nat) : List Int :=
  (List.range (length + 1)).map
    (fun (j : Nat) => timeNow - ((length : Int) - ((j : Nat) : Int)) * intervalSeconds)

/-- The `values` slice built by the alignment loop of
`prometheusQueryRange` over the first series of the matrix. -/
def alignValues (s : SampleStream) (timeNow intervalSeconds : Int)
    (length : Nat) (nilValue : ℚ) : List ℚ :=
  (gridTimes timeNow intervalSeconds length).map (fun t => findPromValue s t nilValue)

/-- The `labels` slice built by the alignment loop of
`prometheusQueryRange`. -/
def alignLabels (timeNow intervalSeconds : Int) (length : Nat) (tzOffset : Int) : List String :=
  (gridTimes timeNow intervalSeconds length).map (formatHHMM tzOffset)

/-- The shape of a backend query result (`model.Value`): a matrix with
its list of series, or any non-matrix result type. -/
inductive QueryResult
  | matrix (m : List SampleStream)
  | nonMatrix

/-- Outcome of running code that may terminate the process: `fatal`
models `log.Fatalf`, `panicked` a Go runtime panic (index out of range),
`ok` a normal return. -/
inductive ProcOut (α : Type)
  | fatal
  | panicked
  | ok (a : α)
deriving DecidableEq

/-- `prometheusQueryRange` from main.go after the client has been built,
parametrised by the outcome `resp` of the range query call:
`Except.error` is a failed call (network, backend or timeout error), and
`Except.ok` a returned value.  A failed call returns the still-empty
`values`/`labels`; a non-matrix result hits `log.Fatalf`; the index
expression `result.(model.Matrix)[0]` panics on an empty matrix (the
loop body runs at least once since `i` counts from `length` down to 0);
otherwise every grid instant is looked up in the first series via
`findPromValue` and labelled via `formatHHMM`. -/
def prometheusQueryRange (resp : Except Unit QueryResult) (length : Nat)
    (intervalSeconds : Int) (nilValue : ℚ) (tzOffset timeNow : Int) :
    ProcOut (List ℚ × List String) :=
  match resp with
  | .error _ => .ok ([], [])
  | .ok .nonMatrix => .fatal
  | .ok (.matrix []) => .panicked
  | .ok (.matrix (s :: _)) =>
      .ok (alignValues s timeNow intervalSeconds length nilValue,
           alignLabels timeNow intervalSeconds length tzOffset)

/-- A well-formed backend series: no two samples share a timestamp. -/
def distinctTimestamps (s : SampleStream) : Prop :=
  s.Values.Pairwise (fun a b => a.1 ≠ b.1)

theorem findPromValueList_eq_of_mem (l : List Sample) (t : Int) (nil v : ℚ)
    (hp : l.Pairwise (fun a b => a.1 ≠ b.1)) (hv : (t, v) ∈ l) :
    findPromValueList l t nil = v := by
  induction l with
  | nil => simp at hv
  | cons hd tl ih =>
      obtain ⟨ts, w⟩ := hd
      rcases List.mem_cons.mp hv with h | h
      · obtain ⟨h1, h2⟩ := Prod.mk.injEq .. ▸ h.symm
        simp [findPromValueList, h1, h2]
      · have hts : ts ≠ t := by
          have := (List.pairwise_cons.mp hp).1 _ h
          simpa using this
        simp only [findPromValueList, if_neg hts]
        exact ih (List.pairwise_cons.mp hp).2 h

theorem findPromValueList_eq_nil_of_not_mem (l : List Sample) (t : Int) (nil : ℚ)
    (h : ∀ v : ℚ, (t, v) ∉ l) : findPromValueList l t nil = nil := by
  induction l with
  | nil => rfl
  | cons hd tl ih =>
      obtain ⟨ts, w⟩ := hd
      have hts : ts ≠ t := by
        intro he
        exact h w (by simp [he])
      simp only [findPromValueList, if_neg hts]
      exact ih (fun v hv => h v (List.mem_cons_of_mem _ hv))

theorem findPromValueList_mem_of_exists (l : List Sample) (t : Int) (nil : ℚ)
    (h : ∃ v : ℚ, (t, v) ∈ l) : (t, findPromValueList l t nil) ∈ l := by
  induction l with
  | nil => simp at h
  | cons hd tl ih =>
      obtain ⟨ts, w⟩ := hd
      by_cases hts : ts = t
      · simp [findPromValueList, hts]
      · simp only [findPromValueList, if_neg hts]
        obtain ⟨v, hv⟩ := h
        rcases List.mem_cons.mp hv with he | he
        · exact absurd (congrArg Prod.fst he).symm hts
        · exact List.mem_cons_of_mem _ (ih ⟨v, he⟩)

theorem gridTimes_getElem (timeNow intervalSeconds : Int) (length i : Nat)
    (hi : i ≤ length) :
    (gridTimes timeNow intervalSeconds length)[length - i]?
      = some (timeNow - (i : Int) * intervalSeconds) := by
  have hlt : length - i < length + 1 := by omega
  have hcast : ((length : Int) - ((length - i : Nat) : Int)) = (i : Int) := by omega
  unfold gridTimes
  rw [List.getElem?_map, List.getElem?_range hlt, Option.map_some', hcast]

/-- C1: for every successful single-series-matrix backend response (with
well-formed, duplicate-free timestamps), `prometheusQueryRange` returns
exactly `length+1` points, oldest first; for `i` counting from `length`
down to 0, the point at output position `length - i` carries the value of
the backend sample whose timestamp equals `timeNow - i*intervalSeconds`
when such a sample exists and the sentinel `nullValue` otherwise, and its
label is that grid instant formatted as HH:MM in the display timezone. -/
theorem fetchRange_aligned (s : SampleStream) (hs : distinctTimestamps s)
    (length : Nat) (intervalSeconds timeNow tzOffset : Int)
    (i : Nat) (hi : i ≤ length) :
    ∃ values labels,
      prometheusQueryRange (.ok (.matrix [s])) length intervalSeconds nullValue tzOffset timeNow
        = .ok (values, labels)
      ∧ values.length = length + 1
      ∧ labels.length = length + 1
      ∧ values[length - i]?
          = some (findPromValue s (timeNow - (i : Int) * intervalSeconds) nullValue)
      ∧ (∀ v : ℚ, (timeNow - (i : Int) * intervalSeconds, v) ∈ s.Values →
            findPromValue s (timeNow - (i : Int) * intervalSeconds) nullValue = v)
      ∧ ((∀ v : ℚ, (timeNow - (i : Int) * intervalSeconds, v) ∉ s.Values) →
            findPromValue s (timeNow - (i : Int) * intervalSeconds) nullValue = nullValue)
      ∧ labels[length - i]?
          = some (formatHHMM tzOffset (timeNow - (i : Int) * intervalSeconds)) := by
  refine ⟨alignValues s timeNow intervalSeconds length nullValue,
    alignLabels timeNow intervalSeconds length tzOffset, rfl, ?_, ?_, ?_, ?_, ?_, ?_⟩
  · simp [alignValues, gridTimes]
  · simp [alignLabels, gridTimes]
  · unfold alignValues
    rw [List.getElem?_map, gridTimes_getElem timeNow intervalSeconds length i hi,
      Option.map_some']
  · intro v hv
    exact findPromValueList_eq_of_mem s.Values _ nullValue v hs hv
  · intro hnone
    exact findPromValueList_eq_nil_of_not_mem s.Values _ nullValue hnone
  · unfold alignLabels
    rw [List.getElem?_map, gridTimes_getElem timeNow intervalSeconds length i hi,
      Option.map_some']

/-- C1 witness: the theorem applied to a concrete one-sample series with a
two-step window, every definition evaluated on the result. -/
theorem fetchRange_aligned_witness :
    (∃ values labels,
      prometheusQueryRange (.ok (.matrix [⟨[(100, 7)]⟩])) 2 60 nullValue 0 100
        = .ok (values, labels)
      ∧ values.length = 2 + 1
      ∧ labels.length = 2 + 1
      ∧ values[2 - 0]? = some (findPromValue ⟨[(100, 7)]⟩ (100 - (0 : Int) * 60) nullValue)
      ∧ (∀ v : ℚ, ((100 : Int) - (0 : Int) * 60, v) ∈ [((100 : Int), (7 : ℚ))] →
            findPromValue ⟨[(100, 7)]⟩ (100 - (0 : Int) * 60) nullValue = v)
      ∧ ((∀ v : ℚ, ((100 : Int) - (0 : Int) * 60, v) ∉ [((100 : Int), (7 : ℚ))]) →
            findPromValue ⟨[(100, 7)]⟩ (100 - (0 : Int) * 60) nullValue = nullValue)
      ∧ labels[2 - 0]? = some (formatHHMM 0 (100 - (0 : Int) * 60)))
    ∧ prometheusQueryRange (.ok (.matrix [⟨[(100, 7)]⟩])) 2 60 nullValue 0 100
        = .ok ([nullValue, nullValue, 7], ["23:59", "00:00", "00:01"]) := by
  constructor
  · exact fetchRange_aligned ⟨[(100, 7)]⟩ (by simp [distinctTimestamps]) 2 60 100 0 0
      (by omega)
  · decide

/-- The termui colors that the `syncProm` line-color scan can assign. -/
inductive UiColor
  | green
  | yellow
  | magenta
  | red
deriving DecidableEq

/-- One iteration of the line-color loop in `syncProm`:
`if d > Warn && color == Green { Yellow } else if d == nullValue
{ Magenta } else if d > Error { Red }`. -/
def scanStep (warn err : ℚ) (c : UiColor) (d : ℚ) : UiColor :=
  if d > warn ∧ c = UiColor.green then UiColor.yellow
  else if d = nullValue then UiColor.magenta
  else if d > err then UiColor.red
  else c

/-- The chart line color computed by `syncProm`: initialised to green and
scanned point by point, but only when `Warn > 0` ("If not defined, we
just assume no warning/error colors"). -/
def lineColor (warn err : ℚ) (r0 : List ℚ) : UiColor :=
  if warn > 0 then r0.foldl (scanStep warn err) UiColor.green else UiColor.green

theorem scanStep_ne_green (warn err : ℚ) (c : UiColor) (d : ℚ) (hc : c ≠ UiColor.green) :
    scanStep warn err c d ≠ UiColor.green := by
  unfold scanStep
  split
  · simp
  · split
    · simp
    · split
      · simp
      · exact hc

theorem foldl_scanStep_ne_green (warn err : ℚ) (r : List ℚ) (c : UiColor)
    (hc : c ≠ UiColor.green) :
    r.foldl (scanStep warn err) c ≠ UiColor.green := by
  induction r generalizing c with
  | nil => exact hc
  | cons d tl ih => exact ih _ (scanStep_ne_green warn err c d hc)

theorem scanStep_green_eq_green (warn err d : ℚ) (hw : 0 < warn) (hwe : warn ≤ err) :
    scanStep warn err UiColor.green d = UiColor.green ↔ ¬ d > warn ∧ d ≠ nullValue := by
  unfold scanStep
  by_cases h1 : d > warn
  · rw [if_pos ⟨h1, rfl⟩]
    simp [h1]
  · rw [if_neg (by rintro ⟨hgt, -⟩; exact h1 hgt)]
    by_cases h2 : d = nullValue
    · rw [if_pos h2]
      simp [h2]
    · rw [if_neg h2]
      have h3 : ¬ d > err := fun hgt => h1 (lt_of_le_of_lt hwe hgt)
      rw [if_neg h3]
      simp [h1, h2]

theorem scanStep_nullValue (warn err : ℚ) (c : UiColor) (hw : 0 < warn) :
    scanStep warn err c nullValue = UiColor.magenta := by
  unfold scanStep
  rw [if_neg, if_pos rfl]
  rintro ⟨hgt, -⟩
  have hlt : nullValue < warn := lt_trans (by norm_num [nullValue]) hw
  exact absurd hgt (not_lt.mpr hlt.le)

theorem scanStep_error_level (warn err d : ℚ) (c : UiColor) (hc : c ≠ UiColor.green)
    (hne : d ≠ nullValue) (hgt : d > err) : scanStep warn err c d = UiColor.red := by
  unfold scanStep
  rw [if_neg, if_neg hne, if_pos hgt]
  rintro ⟨-, hg⟩
  exact hc hg

theorem scanStep_warn_green (warn err d : ℚ) (hgt : d > warn) :
    scanStep warn err UiColor.green d = UiColor.yellow := by
  unfold scanStep
  rw [if_pos ⟨hgt, rfl⟩]

/-- C2 counterexample: on the series `[5, SENTINEL, 50]` with
`warn = 10` and `err = 40` the scan of `syncProm` ends at red, not at
the magenta "missing" classification: the error-level point seen after
the SENTINEL overwrites the missing classification. -/
theorem lineColor_missing_counterexample :
    lineColor 10 40 [5, nullValue, 50] = UiColor.red
    ∧ UiColor.red ≠ UiColor.magenta := by
  constructor
  · decide
  · decide

/-- C2 amended: for the aligned series `[5, SENTINEL, 50]` with
`warnThreshold = 10` and `errorThreshold = 40`, the per-point scan
produces the error classification (the red line color): the SENTINEL is
seen after the warn-level point, but the subsequent error-level point
overwrites the missing classification. -/
theorem lineColor_missing_overwritten :
    lineColor 10 40 [5, nullValue, 50] = UiColor.red := by
  decide

/-- C3 counterexample: `[50]` with `warn = 10`, `err = 40` contains an
error-level point and no SENTINEL, yet the scan ends at the warn color
(yellow), because the warn branch fires first while the color is still
green; so the final color is not the strongest classification in the
window. -/
theorem lineColor_strongest_counterexample :
    (50 : ℚ) > 40
    ∧ (∀ d ∈ [(50 : ℚ)], d ≠ nullValue)
    ∧ lineColor 10 40 [50] = UiColor.yellow
    ∧ UiColor.yellow ≠ UiColor.red := by
  refine ⟨by norm_num, ?_, by decide, by decide⟩
  intro d hd
  simp at hd
  rw [hd]
  decide

/-- C3 amended: with `0 < warnThreshold ≤ errorThreshold`, the scan is
order-dependent rather than strongest-classification: the color stays
neutral (green) exactly when no point exceeds `warn` and none is the
SENTINEL; a SENTINEL as last point always yields missing (magenta); a
point exceeding `err` yields error (red) only when the color has already
left neutral; and a point exceeding `warn` while the color is still
neutral yields warn (yellow) even when it also exceeds `err`. -/
theorem lineColor_scan_characterisation (warn err : ℚ) (hw : 0 < warn)
    (hwe : warn ≤ err) (r : List ℚ) (d : ℚ) :
    (lineColor warn err r = UiColor.green ↔ ∀ x ∈ r, ¬ x > warn ∧ x ≠ nullValue)
    ∧ lineColor warn err (r ++ [nullValue]) = UiColor.magenta
    ∧ (d ≠ nullValue → d > err → lineColor warn err r ≠ UiColor.green →
        lineColor warn err (r ++ [d]) = UiColor.red)
    ∧ (d > warn → lineColor warn err r = UiColor.green →
        lineColor warn err (r ++ [d]) = UiColor.yellow) := by
  unfold lineColor
  rw [if_pos hw, if_pos hw, if_pos hw]
  refine ⟨?_, ?_, ?_, ?_⟩
  · induction r with
    | nil => simp
    | cons x tl ih =>
        rw [List.foldl_cons]
        constructor
        · intro h
          have hx : scanStep warn err UiColor.green x = UiColor.green := by
            by_contra hne
            exact foldl_scanStep_ne_green warn err tl _ hne h
          have hx2 := (scanStep_green_eq_green warn err x hw hwe).mp hx
          intro y hy
          rcases List.mem_cons.mp hy with hy | hy
          · exact hy ▸ hx2
          · rw [hx] at h
            exact (ih.mp h) y hy
        · intro h
          have hx : scanStep warn err UiColor.green x = UiColor.green :=
            (scanStep_green_eq_green warn err x hw hwe).mpr (h x (List.mem_cons_self x tl))
          rw [hx]
          exact ih.mpr (fun y hy => h y (List.mem_cons_of_mem _ hy))
  · rw [List.foldl_append, List.foldl_cons, List.foldl_nil]
    exact scanStep_nullValue warn err _ hw
  · intro hne hgt hc
    rw [List.foldl_append, List.foldl_cons, List.foldl_nil]
    exact scanStep_error_level warn err d _ hc hne hgt
  · intro hgt hc
    rw [List.foldl_append, List.foldl_cons, List.foldl_nil, hc]
    exact scanStep_warn_green warn err d hgt

/-- C3 witness: the characterisation applied at `warn = 10`, `err = 40`,
`r = [5]`, `d = 50`, with each hypothesis discharged concretely.  In
particular the appended point 50 exceeds both thresholds, and since
`lineColor 10 40 [5]` is still green the result is yellow. -/
theorem lineColor_scan_characterisation_witness :
    (lineColor 10 40 [5] = UiColor.green ↔ ∀ x ∈ [(5 : ℚ)], ¬ x > 10 ∧ x ≠ nullValue)
    ∧ lineColor 10 40 ([5] ++ [nullValue]) = UiColor.magenta
    ∧ ((50 : ℚ) ≠ nullValue → (50 : ℚ) > 40 → lineColor 10 40 [5] ≠ UiColor.green →
        lineColor 10 40 ([5] ++ [50]) = UiColor.red)
    ∧ ((50 : ℚ) > 10 → lineColor 10 40 [5] = UiColor.green →
        lineColor 10 40 ([5] ++ [50]) = UiColor.yellow) := by
  exact lineColor_scan_characterisation 10 40 (by norm_num) (by norm_num) [5] 50

/-- A termui rectangle as passed to `SetRect(x1, y1, x2, y2)`. -/
structure Rect where
  x1 : Int
  y1 : Int
  x2 : Int
  y2 : Int
deriving DecidableEq

/-- Everything `resizeUi` writes: widget rectangles, figlet font names,
the right-alignment pad widths, and the advisory text of the clock panel
(set only in the unsupported branch).  Fields a branch does not write
are `none`. -/
structure LayoutDescriptor where
  pClockRect : Rect
  pDateRect : Option Rect
  chart0Rect : Option Rect
  pMetricRect : Option Rect
  fontClockWidth : Option Int
  fontDateWidth : Option Int
  fontClock : String
  fontDate : Option String
  fontLabel : Option String
  pClockText : Option String
deriving DecidableEq

/-- Branch 1 of `resizeUi`: the exact 240x30 8-inch LCD profile. -/
def profile1 (w h : Int) : LayoutDescriptor where
  pClockRect := ⟨100, -3, w - 28, 17⟩
  pDateRect := some ⟨w - 30, -1, w + 1, 17⟩
  chart0Rect := some ⟨0, 16, w + 1, h + 1⟩
  pMetricRect := some ⟨0, 4, w - 140, 17⟩
  fontClockWidth := some 109
  fontDateWidth := some 29
  fontClock := "doh"
  fontDate := some "standard"
  fontLabel := some "standard"
  pClockText := none

/-- Branch 2 of `resizeUi`: the scaled wide profile. -/
def profile2 (w h : Int) : LayoutDescriptor where
  pClockRect := ⟨0, -3, w - 28, 17⟩
  pDateRect := some ⟨w - 30, -1, w + 1, 17⟩
  chart0Rect := some ⟨0, 17, w + 1, h + 1⟩
  pMetricRect := some ⟨0, 4, w - 140, 17⟩
  fontClockWidth := some (w - 28 - 4)
  fontDateWidth := some 29
  fontClock := "doh"
  fontDate := some "standard"
  fontLabel := some ""
  pClockText := none

/-- Branch 3 of `resizeUi`: the medium profile. -/
def profile3 (w h : Int) : LayoutDescriptor where
  pClockRect := ⟨0, 0, w - 16, 11⟩
  pDateRect := some ⟨w - 18, -1, w + 1, 11⟩
  chart0Rect := some ⟨0, 11, w + 1, h + 1⟩
  pMetricRect := some ⟨0, 4, w - 140, 11⟩
  fontClockWidth := some (w - 16 - 4)
  fontDateWidth := some 17
  fontClock := "colossal"
  fontDate := some "mini"
  fontLabel := some ""
  pClockText := none

/-- Branch 4 of `resizeUi`: the compact profile. -/
def profile4 (w h : Int) : LayoutDescriptor where
  pClockRect := ⟨-2, -1, w - 4, 6⟩
  pDateRect := some ⟨w - 5, 1, w + 1, 6⟩
  chart0Rect := some ⟨0, 6, w + 1, h + 1⟩
  pMetricRect := some ⟨0, 4, w - 140, 6⟩
  fontClockWidth := some (w - 6 - 2)
  fontDateWidth := some 4
  fontClock := "standard"
  fontDate := some "term"
  fontLabel := some ""
  pClockText := none

/-- The advisory message of the final `resizeUi` branch. -/
def unsupportedMsg (w h : Int) : String :=
  "[Unsupported terminal size of " ++ toString w ++ " x " ++ toString h
    ++ "\nResize or (q)uit](fg:red)"

/-- Final branch of `resizeUi`: unsupported terminal size.  Only the
clock panel is touched: it covers the screen and shows the advisory
message, and `fontClock` is cleared, which gates off all clock and data
rendering in `syncTerminal`. -/
def profileUnsupported (w h : Int) : LayoutDescriptor where
  pClockRect := ⟨-1, -1, w + 1, h + 1⟩
  pDateRect := none
  chart0Rect := none
  pMetricRect := none
  fontClockWidth := none
  fontDateWidth := none
  fontClock := ""
  fontDate := none
  fontLabel := none
  pClockText := some (unsupportedMsg w h)

/-- Condition of branch 1 of `resizeUi`: `width == 240 && height == 30`. -/
def cond1 (w h : Int) : Prop := w = 240 ∧ h = 30

/-- Condition of branch 2: `width >= 131 && height >= 30`. -/
def cond2 (w h : Int) : Prop := 131 ≤ w ∧ 30 ≤ h

/-- Condition of branch 3: `width >= 68 && height >= 20`. -/
def cond3 (w h : Int) : Prop := 68 ≤ w ∧ 20 ≤ h

/-- Condition of branch 4: `width >= 40 && height >= 16`. -/
def cond4 (w h : Int) : Prop := 40 ≤ w ∧ 16 ≤ h

instance (w h : Int) : Decidable (cond1 w h) := by unfold cond1; infer_instance
instance (w h : Int) : Decidable (cond2 w h) := by unfold cond2; infer_instance
instance (w h : Int) : Decidable (cond3 w h) := by unfold cond3; infer_instance
instance (w h : Int) : Decidable (cond4 w h) := by unfold cond4; infer_instance

/-- `resizeUi` from main.go as a pure function of the terminal
dimensions: the first matching branch wins, the final branch catches
everything else. -/
def resizeUi (w h : Int) : LayoutDescriptor :=
  if cond1 w h then profile1 w h
  else if cond2 w h then profile2 w h
  else if cond3 w h then profile3 w h
  else if cond4 w h then profile4 w h
  else profileUnsupported w h

/-- The gate in `syncTerminal`: the clock and the datasource panel are
drawn only when `len(fontClock) > 0` ("0 means display not good
enough"). -/
def syncTerminalDraws (d : LayoutDescriptor) : Prop :=
  0 < d.fontClock.length

instance (d : LayoutDescriptor) : Decidable (syncTerminalDraws d) := by
  unfold syncTerminalDraws; infer_instance

/-- First-match semantics of the five breakpoint rules: rule `i` applies
when its raw condition holds and no earlier rule's does; rule 4 is the
catch-all. -/
def ruleFirstMatch (w h : Int) : Nat → Prop
  | 0 => cond1 w h
  | 1 => ¬ cond1 w h ∧ cond2 w h
  | 2 => ¬ cond1 w h ∧ ¬ cond2 w h ∧ cond3 w h
  | 3 => ¬ cond1 w h ∧ ¬ cond2 w h ∧ ¬ cond3 w h ∧ cond4 w h
  | 4 => ¬ cond1 w h ∧ ¬ cond2 w h ∧ ¬ cond3 w h ∧ ¬ cond4 w h
  | _ + 5 => False

/-- The profile each rule selects (rules 5 and above never apply). -/
def profileOf : Nat → Int → Int → LayoutDescriptor
  | 0 => profile1
  | 1 => profile2
  | 2 => profile3
  | 3 => profile4
  | _ => profileUnsupported

/-- The index of the first satisfied breakpoint rule (4 when none is). -/
def selectedRule (w h : Int) : Nat :=
  if cond1 w h then 0
  else if cond2 w h then 1
  else if cond3 w h then 2
  else if cond4 w h then 3
  else 4

instance (w h : Int) : (i : Nat) → Decidable (ruleFirstMatch w h i)
  | 0 => by unfold ruleFirstMatch; infer_instance
  | 1 => by unfold ruleFirstMatch; infer_instance
  | 2 => by unfold ruleFirstMatch; infer_instance
  | 3 => by unfold ruleFirstMatch; infer_instance
  | 4 => by unfold ruleFirstMatch; infer_instance
  | _ + 5 => by unfold ruleFirstMatch; infer_instance

theorem selected_firstMatch (w h : Int) : ruleFirstMatch w h (selectedRule w h) := by
  unfold selectedRule
  split_ifs <;> simp_all [ruleFirstMatch]

theorem firstMatch_eq_selected (w h : Int) (j : Nat) (hj : ruleFirstMatch w h j) :
    j = selectedRule w h := by
  unfold selectedRule
  rcases j with _ | _ | _ | _ | _ | j
  · unfold ruleFirstMatch at hj
    rw [if_pos hj]
  · obtain ⟨hn1, hc2⟩ := hj
    rw [if_neg hn1, if_pos hc2]
  · obtain ⟨hn1, hn2, hc3⟩ := hj
    rw [if_neg hn1, if_neg hn2, if_pos hc3]
  · obtain ⟨hn1, hn2, hn3, hc4⟩ := hj
    rw [if_neg hn1, if_neg hn2, if_neg hn3, if_pos hc4]
  · obtain ⟨hn1, hn2, hn3, hn4⟩ := hj
    rw [if_neg hn1, if_neg hn2, if_neg hn3, if_neg hn4]
  · exact absurd hj (by simp [ruleFirstMatch])

theorem resizeUi_eq_profileOf_selected (w h : Int) :
    resizeUi w h = profileOf (selectedRule w h) w h := by
  unfold resizeUi selectedRule
  split_ifs <;> rfl

/-- C4: the layout function is pure and total: for every `(w, h)` exactly
one of the five breakpoint outcomes applies under first-match semantics
and `resizeUi` returns that rule's profile; the exact 240x30 case
satisfies rule 2's raw condition as well but takes rule 1's (different)
profile; a pair matching no sizing rule yields the unsupported state,
whose empty `fontClock` makes `syncTerminal` render only the advisory
message and suppress all clock/data rendering; every supported rule
renders. -/
theorem resizeUi_breakpoints (w h : Int) :
    (∃! i : Nat, ruleFirstMatch w h i)
    ∧ (∀ i : Nat, ruleFirstMatch w h i → resizeUi w h = profileOf i w h)
    ∧ (ruleFirstMatch 240 30 0 ∧ cond2 240 30
        ∧ resizeUi 240 30 = profile1 240 30 ∧ profile1 240 30 ≠ profile2 240 30)
    ∧ (ruleFirstMatch w h 4 →
        (resizeUi w h).fontClock = ""
        ∧ (resizeUi w h).pClockText = some (unsupportedMsg w h)
        ∧ ¬ syncTerminalDraws (resizeUi w h))
    ∧ (¬ ruleFirstMatch w h 4 →
        syncTerminalDraws (resizeUi w h) ∧ (resizeUi w h).pClockText = none) := by
  refine ⟨⟨selectedRule w h, selected_firstMatch w h,
    fun j hj => firstMatch_eq_selected w h j hj⟩, ?_, ?_, ?_, ?_⟩
  · intro i hi
    rw [firstMatch_eq_selected w h i hi]
    exact resizeUi_eq_profileOf_selected w h
  · exact ⟨by decide, by decide, by decide, by decide⟩
  · intro h4
    have hsel : selectedRule w h = 4 := (firstMatch_eq_selected w h 4 h4).symm
    have heq := resizeUi_eq_profileOf_selected w h
    rw [hsel] at heq
    rw [heq]
    exact ⟨rfl, rfl, by simp [syncTerminalDraws, profileOf, profileUnsupported]⟩
  · intro hn4
    have hsel : selectedRule w h ≠ 4 := fun he => hn4 (he ▸ selected_firstMatch w h)
    have hle : selectedRule w h ≤ 4 := by
      unfold selectedRule
      split_ifs <;> omega
    have heq := resizeUi_eq_profileOf_selected w h
    have hcases : selectedRule w h = 0 ∨ selectedRule w h = 1
        ∨ selectedRule w h = 2 ∨ selectedRule w h = 3 := by omega
    rcases hcases with hk | hk | hk | hk <;> rw [hk] at heq <;> rw [heq] <;>
      exact ⟨by simp only [syncTerminalDraws, profileOf, profile1, profile2, profile3,
        profile4]; decide, rfl⟩

/-- C4 witness: at 30x10 no rule matches, the advisory text is set and
rendering is suppressed; at 100x25 rule 3 matches and rendering is on. -/
theorem resizeUi_breakpoints_witness :
    ruleFirstMatch 30 10 4
    ∧ (resizeUi 30 10).fontClock = ""
    ∧ (resizeUi 30 10).pClockText = some (unsupportedMsg 30 10)
    ∧ ¬ syncTerminalDraws (resizeUi 30 10)
    ∧ syncTerminalDraws (resizeUi 100 25)
    ∧ (resizeUi 100 25).pClockText = none := by
  have h1 := (resizeUi_breakpoints 30 10).2.2.2.1 (by decide)
  have h2 := (resizeUi_breakpoints 100 25).2.2.2.2 (by decide)
  exact ⟨by decide, h1.1, h1.2.1, h1.2.2, h2.1, h2.2⟩

/-- The keyboard events of the main event loop.  A digit key carries the
parsed index (the BACKQUOTE key parses as 0 via the `Atoi` failure
branch); real keyboards only produce 0 through 9, which is a subset of
the modelled `Nat`. -/
inductive KeyEvent
  | digit (d : Nat)
  | left
  | down
  | right
  | up
  | space
  | resize

/-- The mutation each keyboard event applies to `syncPromCount` before
triggering the sync task: digits assign, left/down add
`datasourceCount - 2`, right/up add nothing, space/resize add
`datasourceCount - 1`.  The counter is a Go `int`, modelled as `Int`. -/
def handleKey (N : Int) : KeyEvent → Int → Int
  | .digit d, _ => (d : Int)
  | .left, c => c + (N - 2)
  | .down, c => c + (N - 2)
  | .right, c => c
  | .up, c => c
  | .space, c => c + (N - 1)
  | .resize, c => c + (N - 1)

/-- `i := syncPromCount % datasourceCount` from `syncProm`.  Go's `%` on
`int` truncates toward zero, which is `Int.tmod`. -/
def dsIndex (c N : Int) : Int := c.tmod N

/-- One step of the event loop state: a keyboard event mutates the
counter, a run of the sync task renders `dsIndex` and then executes
`syncPromCount++`. -/
inductive LoopAction
  | key (k : KeyEvent)
  | sync

/-- The datasource indices rendered along a run of the event loop from
counter `c`: every sync renders `dsIndex c N` and increments. -/
def renderedIndices (N : Int) : List LoopAction → Int → List Int
  | [], _ => []
  | .key k :: rest, c => renderedIndices N rest (handleKey N k c)
  | .sync :: rest, c => dsIndex c N :: renderedIndices N rest (c + 1)

theorem dsIndex_bounds (c N : Int) (hN : 1 ≤ N) (hc : 0 ≤ c ∨ N = 1) :
    0 ≤ dsIndex c N ∧ dsIndex c N < N := by
  rcases hc with hc | hc
  · unfold dsIndex
    rw [Int.tmod_eq_emod hc (by omega)]
    exact ⟨Int.emod_nonneg c (by omega), Int.emod_lt_of_pos c (by omega)⟩
  · subst hc
    unfold dsIndex
    have h0 : c.tmod 1 = 0 := by
      rcases c with m | m
      · simp [Int.tmod]
      · simp [Int.tmod]
    omega

theorem handleKey_inv (N : Int) (hN : 1 ≤ N) (k : KeyEvent) (c : Int)
    (hc : 0 ≤ c ∨ N = 1) : 0 ≤ handleKey N k c ∨ N = 1 := by
  rcases k <;> simp only [handleKey] <;> omega

theorem renderedIndices_bounds (N : Int) (hN : 1 ≤ N) (acts : List LoopAction) :
    ∀ c : Int, (0 ≤ c ∨ N = 1) →
      ∀ idx ∈ renderedIndices N acts c, 0 ≤ idx ∧ idx < N := by
  induction acts with
  | nil => intro c _ idx hidx; simp [renderedIndices] at hidx
  | cons a rest ih =>
      intro c hc idx hidx
      cases a with
      | key k =>
          exact ih (handleKey N k c) (handleKey_inv N hN k c hc) idx hidx
      | sync =>
          rcases List.mem_cons.mp hidx with he | hmem
          · exact he ▸ dsIndex_bounds c N hN hc
          · exact ih (c + 1) (by omega) idx hmem

/-- C10: along every sequence of keyboard events and sync runs starting
from the initial counter 0, each rendered datasource index
`syncPromCount % datasourceCount` lies in `[0, N)` (so indexing the
datasource list never goes out of range, given the startup guarantee
`N >= 1`); a digit key `d >= N` renders `d mod N`; and with `N = 1` the
"previous" key (which adds `N - 2 = -1`) still yields index 0. -/
theorem dsIndex_in_range (N : Int) (hN : 1 ≤ N) (acts : List LoopAction) :
    (∀ idx ∈ renderedIndices N acts 0, 0 ≤ idx ∧ idx < N)
    ∧ (∀ d : Nat, dsIndex (handleKey N (KeyEvent.digit d) 0) N = (d : Int).tmod N
        ∧ 0 ≤ (d : Int).tmod N ∧ (d : Int).tmod N < N)
    ∧ (N = 1 → ∀ c : Int, dsIndex (handleKey 1 KeyEvent.left c) 1 = 0) := by
  refine ⟨renderedIndices_bounds N hN acts 0 (Or.inl le_rfl), ?_, ?_⟩
  · intro d
    have hb := dsIndex_bounds (d : Int) N hN (Or.inl (by positivity))
    exact ⟨rfl, hb.1, hb.2⟩
  · intro h1 c
    exact (dsIndex_bounds (handleKey 1 KeyEvent.left c) 1 le_rfl (Or.inr rfl)).1.antisymm
      (by have := (dsIndex_bounds (handleKey 1 KeyEvent.left c) 1 le_rfl (Or.inr rfl)).2; omega)
      |>.symm

/-- C5: cursor navigation wraps modulo the number of sources `N`.  If the
sync task has just rendered index `dsIndex c N` (advancing the counter to
`c + 1`), then after a "previous" (left/down) event the next rendered
index is `(current - 1 + N) mod N` — in particular `N - 1` when the
current index is 0 — and after a "next" (right/up) event it is
`(current + 1) mod N` — in particular 0 when the current index is
`N - 1`. -/
theorem cursor_wraparound (N c : Int) (hN : 1 ≤ N) (hc : 0 ≤ c) :
    dsIndex (handleKey N KeyEvent.left (c + 1)) N = (dsIndex c N - 1 + N).tmod N
    ∧ dsIndex (handleKey N KeyEvent.down (c + 1)) N = (dsIndex c N - 1 + N).tmod N
    ∧ dsIndex (handleKey N KeyEvent.right (c + 1)) N = (dsIndex c N + 1).tmod N
    ∧ dsIndex (handleKey N KeyEvent.up (c + 1)) N = (dsIndex c N + 1).tmod N
    ∧ (dsIndex c N = 0 → dsIndex (handleKey N KeyEvent.left (c + 1)) N = N - 1)
    ∧ (dsIndex c N = N - 1 → dsIndex (handleKey N KeyEvent.right (c + 1)) N = 0) := by
  have hN0 : (0 : Int) ≤ N := by omega
  have hmodnn : 0 ≤ c % N := Int.emod_nonneg c (by omega)
  have h1 : ∀ a : Int, (a + N) % N = a % N := by
    intro a
    have h := Int.add_mul_emod_self_left (a := a) (b := N) (c := 1)
    simpa using h
  have h2 : ∀ a : Int, (a % N - 1) % N = (a - 1) % N := by
    intro a
    rw [Int.sub_emod, Int.emod_emod_of_dvd _ dvd_rfl, ← Int.sub_emod]
  have h3 : ∀ a : Int, (a % N + 1) % N = (a + 1) % N := by
    intro a
    rw [Int.add_emod, Int.emod_emod_of_dvd _ dvd_rfl, ← Int.add_emod]
  have hL : dsIndex (handleKey N KeyEvent.left (c + 1)) N = (c - 1) % N := by
    show (c + 1 + (N - 2)).tmod N = (c - 1) % N
    rw [Int.tmod_eq_emod (by omega) hN0,
      show c + 1 + (N - 2) = c - 1 + N from by ring, h1]
  have hR : (dsIndex c N - 1 + N).tmod N = (c - 1) % N := by
    unfold dsIndex
    rw [Int.tmod_eq_emod hc hN0, Int.tmod_eq_emod (by omega) hN0, h1, h2]
  have hL2 : dsIndex (handleKey N KeyEvent.right (c + 1)) N = (c + 1) % N := by
    show (c + 1).tmod N = (c + 1) % N
    exact Int.tmod_eq_emod (by omega) hN0
  have hR2 : (dsIndex c N + 1).tmod N = (c + 1) % N := by
    unfold dsIndex
    rw [Int.tmod_eq_emod hc hN0, Int.tmod_eq_emod (by omega) hN0, h3]
  have hdc : dsIndex c N = c % N := Int.tmod_eq_emod hc hN0
  refine ⟨hL.trans hR.symm, hL.trans hR.symm, hL2.trans hR2.symm, hL2.trans hR2.symm, ?_, ?_⟩
  · intro h0
    rw [hdc] at h0
    rw [hL, ← h2 c, h0, ← h1 (0 - 1),
      show (0 : Int) - 1 + N = N - 1 from by ring]
    exact Int.emod_eq_of_lt (by omega) (by omega)
  · intro h0
    rw [hdc] at h0
    rw [hL2, ← h3 c, h0,
      show N - 1 + 1 = N from by ring]
    exact Int.emod_self

/-- C5 witness: with 3 sources, "previous" from current index 0 renders
index 2 = 3 - 1, and "next" from current index 2 = 3 - 1 renders 0. -/
theorem cursor_wraparound_witness :
    dsIndex (handleKey 3 KeyEvent.left (0 + 1)) 3 = 3 - 1
    ∧ dsIndex (handleKey 3 KeyEvent.right (2 + 1)) 3 = 0 := by
  constructor
  · exact (cursor_wraparound 3 0 (by omega) le_rfl).2.2.2.2.1 (by decide)
  · exact (cursor_wraparound 3 2 (by omega) (by omega)).2.2.2.2.2 (by decide)

/-- C10 witness: a concrete run with 3 sources — jump to digit 7, two
sync renders, a "previous" and another render — keeps all rendered
indices in range, a digit 7 with 3 sources renders 7 mod 3, and with a
single source "previous" still renders 0. -/
theorem dsIndex_in_range_witness :
    (∀ idx ∈ renderedIndices 3
        [LoopAction.key (KeyEvent.digit 7), LoopAction.sync, LoopAction.sync,
         LoopAction.key KeyEvent.left, LoopAction.sync] 0,
      0 ≤ idx ∧ idx < 3)
    ∧ dsIndex (handleKey 3 (KeyEvent.digit 7) 0) 3 = (7 : Int).tmod 3
    ∧ dsIndex (handleKey 1 KeyEvent.left (-5)) 1 = 0 := by
  have h := dsIndex_in_range 3 (by omega)
    [LoopAction.key (KeyEvent.digit 7), LoopAction.sync, LoopAction.sync,
     LoopAction.key KeyEvent.left, LoopAction.sync]
  have h1 := dsIndex_in_range 1 le_rfl []
  exact ⟨h.1, (h.2.1 7).1, h1.2.2 rfl (-5)⟩

/-- A datasource descriptor as loaded from the JSON config. -/
structure Datasource where
  Title : String
  Query : String
  Prom : String
  Unit : String
  Warn : ℚ
  Error : ℚ
deriving DecidableEq

/-- The data that `syncProm` hands to the terminal widgets in its
`len(r0) == 0` error branch: either the big-glyph metric panel (figlet
renderings of the source title and the fixed "PROM ERROR" string) when a
label font is configured, or the chart title string, which interpolates
title and endpoint. -/
inductive ErrorPanel
  | metricFig (label : String) (value : String)
  | chartTitle (title : String) (message : String) (endpoint : String)
deriving DecidableEq

/-- The error branch of `syncProm`: `if len(fontLabel) > 0` the metric
panel shows figlet renderings of the title and of "PROM ERROR"; else the
chart title becomes `fmt.Sprintf("%s PROM ERROR %s", Title, Prom)`. -/
def syncPromError (fontLabel : String) (ds : Datasource) : ErrorPanel :=
  if 0 < fontLabel.length then ErrorPanel.metricFig ds.Title "PROM ERROR"
  else ErrorPanel.chartTitle ds.Title "PROM ERROR" ds.Prom

/-- The endpoint string a panel carries, if any. -/
def endpointShown : ErrorPanel → Option String
  | ErrorPanel.metricFig _ _ => none
  | ErrorPanel.chartTitle _ _ e => some e

/-- The title string a panel carries. -/
def titleShown : ErrorPanel → String
  | ErrorPanel.metricFig l _ => l
  | ErrorPanel.chartTitle t _ _ => t

/-- What one run of `syncProm` renders: a data panel (aligned values,
labels and the scan line color) or the per-source error panel. -/
inductive SyncRender
  | data (values : List ℚ) (labels : List String) (color : UiColor)
  | sourceError (p : ErrorPanel)

/-- One run of `syncProm` given the outcome of `prometheusQueryRange`:
a fatal exit or panic propagates; otherwise `len(r0) > 0` selects the
data branch (with the line-color scan) and the empty series selects the
error branch; both end with `syncPromCount++`. -/
def syncPromRun (queryOut : ProcOut (List ℚ × List String)) (fontLabel : String)
    (ds : Datasource) (c : Int) : ProcOut (SyncRender × Int) :=
  match queryOut with
  | .fatal => .fatal
  | .panicked => .panicked
  | .ok (r0, l0) =>
      if 0 < r0.length then
        .ok (.data r0 l0 (lineColor ds.Warn ds.Error r0), c + 1)
      else
        .ok (.sourceError (syncPromError fontLabel ds), c + 1)

/-- C6 counterexample: in the 240x30 layout (`fontLabel = "standard"`)
the per-source error panel carries the title and the fixed "PROM ERROR"
figlet input but no endpoint, so the claim that the panel carries title
and endpoint fails there. -/
theorem fetch_error_endpoint_counterexample :
    syncPromError "standard" ⟨"cpu", "up", "http://prom:9090", "%", 10, 40⟩
      = ErrorPanel.metricFig "cpu" "PROM ERROR"
    ∧ endpointShown (syncPromError "standard" ⟨"cpu", "up", "http://prom:9090", "%", 10, 40⟩)
      = none
    ∧ (none : Option String) ≠ some "http://prom:9090" := by
  refine ⟨by decide, by decide, by simp⟩

/-- C6 amended: a failed range-query call makes `prometheusQueryRange`
return the empty series instead of terminating, and `syncProm` then
renders the per-source error panel — which always carries the source
title, and carries the endpoint exactly when no label font is configured
(the titled-chart layouts); the run completes normally (no fatal exit,
counter advanced), so the loop stays alive and retries later. -/
theorem fetch_error_recoverable (length : Nat) (intervalSeconds tzOffset timeNow : Int)
    (fontLabel : String) (ds : Datasource) (c : Int) :
    prometheusQueryRange (.error ()) length intervalSeconds nullValue tzOffset timeNow
      = .ok ([], [])
    ∧ (∃ p : ErrorPanel,
        syncPromRun (.ok ([], [])) fontLabel ds c = .ok (.sourceError p, c + 1)
        ∧ titleShown p = ds.Title
        ∧ endpointShown p = (if 0 < fontLabel.length then none else some ds.Prom)) := by
  refine ⟨rfl, syncPromError fontLabel ds, rfl, ?_, ?_⟩
  · unfold syncPromError
    split_ifs <;> rfl
  · unfold syncPromError
    split_ifs <;> rfl

/-- C6 witness: the amended theorem applied in both layout families — no
label font (endpoint shown in the chart title) and the 240x30 label font
(endpoint absent). -/
theorem fetch_error_recoverable_witness :
    (∃ p : ErrorPanel,
        syncPromRun (.ok ([], [])) "" ⟨"cpu", "up", "http://prom:9090", "%", 10, 40⟩ 0
          = .ok (.sourceError p, 0 + 1)
        ∧ titleShown p = "cpu"
        ∧ endpointShown p = (if 0 < ("" : String).length then none else some "http://prom:9090"))
    ∧ (∃ p : ErrorPanel,
        syncPromRun (.ok ([], [])) "standard" ⟨"cpu", "up", "http://prom:9090", "%", 10, 40⟩ 0
          = .ok (.sourceError p, 0 + 1)
        ∧ titleShown p = "cpu"
        ∧ endpointShown p
            = (if 0 < ("standard" : String).length then none else some "http://prom:9090")) := by
  constructor
  · exact (fetch_error_recoverable 60 60 0 0 "" ⟨"cpu", "up", "http://prom:9090", "%", 10, 40⟩ 0).2
  · exact (fetch_error_recoverable 60 60 0 0 "standard"
      ⟨"cpu", "up", "http://prom:9090", "%", 10, 40⟩ 0).2

/-- C7 counterexample: a matrix with two series is not treated as a
fatal error — `prometheusQueryRange` aligns and returns the first
series, ignoring the second, instead of terminating the process. -/
theorem multiSeries_not_fatal_counterexample :
    prometheusQueryRange
        (.ok (.matrix [⟨[((0 : Int), (1 : ℚ))]⟩, ⟨[((0 : Int), (2 : ℚ))]⟩])) 0 60 nullValue 0 0
      = .ok ([1], ["00:00"])
    ∧ prometheusQueryRange
        (.ok (.matrix [⟨[((0 : Int), (1 : ℚ))]⟩, ⟨[((0 : Int), (2 : ℚ))]⟩])) 0 60 nullValue 0 0
      ≠ .fatal
    ∧ prometheusQueryRange
        (.ok (.matrix [⟨[((0 : Int), (1 : ℚ))]⟩, ⟨[((0 : Int), (2 : ℚ))]⟩])) 0 60 nullValue 0 0
      ≠ .panicked := by
  refine ⟨by decide, by decide, by decide⟩

/-- C7 amended: a non-matrix result is a fatal unsupported-shape error
(`log.Fatalf`), and an empty matrix terminates the process too (via the
index-out-of-range panic of `Matrix[0]`); but a matrix with one or more
series — including more than one — is not fatal: the first series is
aligned and rendered and any remaining series are ignored. -/
theorem resultShape_handling (length : Nat) (intervalSeconds tzOffset timeNow : Int)
    (s : SampleStream) (rest : List SampleStream) :
    prometheusQueryRange (.ok .nonMatrix) length intervalSeconds nullValue tzOffset timeNow
      = .fatal
    ∧ prometheusQueryRange (.ok (.matrix [])) length intervalSeconds nullValue tzOffset timeNow
      = .panicked
    ∧ prometheusQueryRange (.ok (.matrix (s :: rest))) length intervalSeconds nullValue
        tzOffset timeNow
      = .ok (alignValues s timeNow intervalSeconds length nullValue,
             alignLabels timeNow intervalSeconds length tzOffset) := by
  exact ⟨rfl, rfl, rfl⟩

/-- C7 witness: the amended theorem at a concrete window and a concrete
two-series matrix, the aligned output of the first series evaluated. -/
theorem resultShape_handling_witness :
    (prometheusQueryRange (.ok .nonMatrix) 0 60 nullValue 0 0 = .fatal
    ∧ prometheusQueryRange (.ok (.matrix [])) 0 60 nullValue 0 0 = .panicked
    ∧ prometheusQueryRange
        (.ok (.matrix (⟨[((0 : Int), (1 : ℚ))]⟩ :: [⟨[((0 : Int), (2 : ℚ))]⟩]))) 0 60 nullValue 0 0
      = .ok (alignValues ⟨[((0 : Int), (1 : ℚ))]⟩ 0 60 0 nullValue, alignLabels 0 60 0 0))
    ∧ alignValues ⟨[((0 : Int), (1 : ℚ))]⟩ 0 60 0 nullValue = [1]
    ∧ alignLabels 0 60 0 0 = ["00:00"] := by
  exact ⟨resultShape_handling 0 60 0 0 ⟨[((0 : Int), (1 : ℚ))]⟩ [⟨[((0 : Int), (2 : ℚ))]⟩],
    by decide, by decide⟩

/-- C8: round-trip — when the backend response has a sample at every
grid timestamp `timeNow - i*intervalSeconds` for `i` in `[0, length]`,
and (per the documented sentinel invariant) no sample value equals the
sentinel, the aligned values contain zero sentinel entries: every
emitted value comes from the response. -/
theorem roundTrip_no_sentinel (s : SampleStream) (length : Nat)
    (intervalSeconds timeNow : Int)
    (hval : ∀ p ∈ s.Values, p.2 ≠ nullValue)
    (hcov : ∀ i : Nat, i ≤ length →
      ∃ v : ℚ, (timeNow - (i : Int) * intervalSeconds, v) ∈ s.Values) :
    ∀ x ∈ alignValues s timeNow intervalSeconds length nullValue, x ≠ nullValue := by
  intro x hx
  obtain ⟨t, ht, hfx⟩ := List.mem_map.mp hx
  obtain ⟨j, hj, hjt⟩ := List.mem_map.mp ht
  have hjlt : j < length + 1 := List.mem_range.mp hj
  have hgrid : t = timeNow - ((length - j : Nat) : Int) * intervalSeconds := by
    rw [← hjt]
    have : ((length : Int) - (j : Int)) = ((length - j : Nat) : Int) := by omega
    rw [this]
  have hex : ∃ v : ℚ, (t, v) ∈ s.Values := by
    rw [hgrid]
    exact hcov (length - j) (by omega)
  have hmem : (t, findPromValueList s.Values t nullValue) ∈ s.Values :=
    findPromValueList_mem_of_exists s.Values t nullValue hex
  have := hval _ hmem
  rw [← hfx]
  exact this

/-- C8 witness: a two-point window fully covered by a concrete response;
the aligned output is `[1, 2]` and the theorem excludes the sentinel
from every aligned value. -/
theorem roundTrip_no_sentinel_witness :
    alignValues ⟨[((40 : Int), (1 : ℚ)), ((100 : Int), (2 : ℚ))]⟩ 100 60 1 nullValue = [1, 2]
    ∧ ∀ x ∈ alignValues ⟨[((40 : Int), (1 : ℚ)), ((100 : Int), (2 : ℚ))]⟩ 100 60 1 nullValue,
        x ≠ nullValue := by
  constructor
  · decide
  · refine roundTrip_no_sentinel ⟨[((40 : Int), (1 : ℚ)), ((100 : Int), (2 : ℚ))]⟩ 1 60 100
      (by decide) ?_
    intro i hi
    match i, hi with
    | 0, _ => exact ⟨2, by decide⟩
    | 1, _ => exact ⟨1, by decide⟩
